import Mathlib

/-!
Shallow embedding of the dataset-classification and linked-data assembly core
of `src/hdf5Work/chatGPT-HDF5reader.py`.

The embedding starts at the `datasets_info` mapping that the h5py visitor
builds: a Python dict (insertion ordered, unique keys) from dataset path to a
per-node record with fields `path`, `shape`, `dtype`, `attrs`, `dims`.  We
model it as a `List NodeDescriptor` iterated in insertion order; the path
uniqueness that a dict guarantees appears as a `Nodup` hypothesis where a
theorem needs it.

External library calls are modelled as follows:
* `np.issubdtype(np.dtype(t), np.number)` may raise (e.g. on the string form
  of a compound dtype, which `np.dtype` cannot parse back); it is passed in as
  an oracle `nc : String → Option Bool`, where `none` models the raised
  exception and `some b` the returned truth value.  `npNumericModel` is one
  concrete such oracle used for witnesses.
* `bytes.decode("utf-8", errors="replace")` is `utf8DecodeReplace`, a total
  UTF-8 decoder that substitutes U+FFFD for ill-formed input.
* `str.lower` is `strLower` (ASCII case folding), `"time" in s` is
  `strContains s "time"`, and `path.split("/")[-1]` is `lastSeg`.
-/

/-- Models `path.split("/")[-1]`: the characters after the last slash
(the whole string when no slash occurs; empty on a trailing slash),
computed by a single left fold that resets at each separator. -/
def lastSegChars (l : List Char) : List Char :=
  l.foldl (fun acc c => if c = '/' then [] else acc ++ [c]) []

/-- Display name of a node: the last segment of its slash-separated path. -/
def lastSeg (p : String) : String := String.mk (lastSegChars p.data)

/-- Models Python `str.lower()` (ASCII case folding, which covers the
"time" substring test the classifier performs). -/
def strLower (s : String) : String := String.mk (s.data.map Char.toLower)

/-- Does the needle (first argument) occur as a leading block of the hay
(second argument)? -/
def listStartsWith : List Char → List Char → Bool
  | [], _ => true
  | _ :: _, [] => false
  | a :: as, b :: bs => a == b && listStartsWith as bs

/-- Does the needle occur as a contiguous block anywhere in the hay? -/
def listHasSub (needle : List Char) : List Char → Bool
  | [] => needle.isEmpty
  | c :: t => listStartsWith needle (c :: t) || listHasSub needle t

/-- Models Python `needle in hay` on strings (contiguous substring test). -/
def strContains (hay needle : String) : Bool := listHasSub needle.data hay.data

/-- The U+FFFD replacement character emitted for undecodable bytes. -/
def replChar : Char := Char.ofNat 0xFFFD

/-- Is the byte a UTF-8 continuation byte? -/
def isCont (b : Nat) : Bool := 0x80 ≤ b && b ≤ 0xBF

/-- Lower bound for the second byte of a three-byte sequence (0xE0 forbids
overlong encodings). -/
def cont3lo (b : Nat) : Nat := if b = 0xE0 then 0xA0 else 0x80

/-- Upper bound for the second byte of a three-byte sequence (0xED forbids
surrogate code points). -/
def cont3hi (b : Nat) : Nat := if b = 0xED then 0x9F else 0xBF

/-- Lower bound for the second byte of a four-byte sequence (0xF0 forbids
overlong encodings). -/
def cont4lo (b : Nat) : Nat := if b = 0xF0 then 0x90 else 0x80

/-- Upper bound for the second byte of a four-byte sequence (0xF4 caps the
code point at U+10FFFF). -/
def cont4hi (b : Nat) : Nat := if b = 0xF4 then 0x8F else 0xBF

/-- Decoder state: accumulated code-point bits, number of continuation bytes
still expected, and the allowed range for the next byte (the first
continuation byte of a sequence is range-restricted per `cont3lo`/`cont4lo`
and friends, the later ones are plain `0x80`–`0xBF`). -/
structure Utf8State where
  acc : Nat
  needed : Nat
  lo : Nat
  hi : Nat
deriving DecidableEq, Repr

/-- Process one byte in the ground state (no sequence pending): ASCII is
emitted as is, `0x80`–`0xC1` and `0xF5`–`0xFF` are ill-formed lead bytes
(one replacement character each), and well-formed lead bytes open a
multi-byte sequence. -/
def utf8Start (b : Nat) : Utf8State × List Char :=
  if b ≤ 0x7F then (⟨0, 0, 0, 0⟩, [Char.ofNat b])
  else if b < 0xC2 then (⟨0, 0, 0, 0⟩, [replChar])
  else if b ≤ 0xDF then (⟨b - 0xC0, 1, 0x80, 0xBF⟩, [])
  else if b ≤ 0xEF then (⟨b - 0xE0, 2, cont3lo b, cont3hi b⟩, [])
  else if b ≤ 0xF4 then (⟨b - 0xF0, 3, cont4lo b, cont4hi b⟩, [])
  else (⟨0, 0, 0, 0⟩, [replChar])

/-- Process one byte: inside a sequence a byte in the allowed range extends
or completes the code point; a byte outside it ends the maximal ill-formed
subpart (one replacement character) and is reprocessed as a lead byte,
exactly as the CPython "replace" error handler does. -/
def utf8Step (st : Utf8State) (b : Nat) : Utf8State × List Char :=
  if st.needed = 0 then utf8Start b
  else if st.lo ≤ b && b ≤ st.hi then
    let acc2 := st.acc * 0x40 + (b - 0x80)
    if st.needed = 1 then (⟨0, 0, 0, 0⟩, [Char.ofNat acc2])
    else (⟨acc2, st.needed - 1, 0x80, 0xBF⟩, [])
  else
    let s2 := utf8Start b
    (s2.1, replChar :: s2.2)

/-- Run the decoder over the whole byte list; a sequence left incomplete at
the end of input is one more replacement character. -/
def utf8Run (st : Utf8State) : List Nat → List Char
  | [] => if st.needed = 0 then [] else [replChar]
  | b :: t =>
    let s2 := utf8Step st b
    s2.2 ++ utf8Run s2.1 t

/-- Total UTF-8 decoding with replacement, modelling CPython
`bytes.decode("utf-8", errors="replace")`: each maximal ill-formed subpart
becomes one U+FFFD and decoding continues; the function never fails. -/
def utf8DecodeReplaceAux (l : List Nat) : List Char := utf8Run ⟨0, 0, 0, 0⟩ l

/-- Decoded text of a byte string under the replacing UTF-8 decoder. -/
def utf8DecodeReplace (b : List Nat) : String := String.mk (utf8DecodeReplaceAux b)

/-- One Python attribute key or value as stored in a descriptor record.
`npBytes` is a `numpy.bytes_` payload (raw bytes); `pystr`, `pyint`,
`pyfloat` are plain Python scalars (for a float only the type tag matters to
the code, so its printed form is carried); `pyarr` models the
`ndarray.tolist()` conversion the visitor performs on array-valued
attributes. -/
inductive PyVal where
  | npBytes (b : List Nat)
  | pystr (s : String)
  | pyint (n : Int)
  | pyfloat (r : String)
  | pyarr (elems : List Int)
deriving DecidableEq, Repr

/-- One entry of `datasets_info`: the record the visitor stores per dataset. -/
structure NodeDescriptor where
  path : String
  shape : List Nat
  dtype : String
  attrs : List (PyVal × PyVal)
  dims : List String
deriving DecidableEq, Repr

/-- The three classification groups. -/
inductive TaxGroup where
  | measures
  | dimensions
  | attributes
deriving DecidableEq, Repr

/-- The `classification` dict: three ordered groups of descriptors. -/
structure Classification where
  measures : List NodeDescriptor
  dimensions : List NodeDescriptor
  attributes : List NodeDescriptor
deriving DecidableEq, Repr

/-- The candidate test of the first loop of `classify_datasets`: the name is
added to `dim_candidates` when `len(info["shape"]) == 1`, or when some entry
`d` of `info["dims"]` satisfies `d and d != ""` (for a string that is exactly
`d ≠ ""`). -/
def isDimCandidate (i : NodeDescriptor) : Bool :=
  i.shape.length == 1 || i.dims.any (fun d => d != "")

/-- The `dim_candidates` set, enumerated in `datasets_info` order.  The Python
object is a `set`, so only its membership is meaningful; claims about the
classifier are stated so that any enumeration with the same members gives the
same result (see the determinism theorem). -/
def dimCandidates (ds : List NodeDescriptor) : List String :=
  (ds.filter (fun i => isDimCandidate i)).map (fun i => i.path)

/-- Python dict lookup `datasets_info[d]` (keys are unique, so the first
match is the match). -/
def lookupPath (ds : List NodeDescriptor) (name : String) : Option NodeDescriptor :=
  ds.find? (fun i => i.path == name)

/-- The comprehension
`[datasets_info[d]["shape"][0] for d in dim_candidates if datasets_info[d]["shape"]]`:
first axis length of every candidate with non-empty shape, in the order the
candidate set is enumerated.  A candidate name always is a dict key; the
`none` branch for a failed lookup is unreachable in that case. -/
def axisLens (ds : List NodeDescriptor) (cands : List String) : List Nat :=
  cands.filterMap (fun d =>
    match lookupPath ds d with
    | some j => if j.shape.isEmpty then none else j.shape.head?
    | none => none)

/-- The body of the second loop of `classify_datasets` for one node, with the
bare `except` modelled by `none`: the only expression in the body that can
raise is `np.dtype(info["dtype"])` (the oracle `nc` returning `none`), and
Python evaluates it before the short-circuited `"time" in name.lower()`.
`some g` means the node is appended to group `g`. -/
def classifyNode (nc : String → Option Bool) (ds : List NodeDescriptor)
    (cands : List String) (i : NodeDescriptor) : Option TaxGroup :=
  if cands.contains i.path then
    match nc i.dtype with
    | none => none
    | some numeric =>
      if numeric || strContains (strLower i.path) "time" then some TaxGroup.dimensions
      else some TaxGroup.attributes
  else
    if (axisLens ds cands).any (fun dimLen =>
        decide (0 < i.shape.length) && i.shape.contains dimLen) then
      some TaxGroup.measures
    else some TaxGroup.attributes

/-- One iteration of the classification loop: append the node to the group
the body chose, or (exception case) leave every group unchanged. -/
def classifyStep (f : NodeDescriptor → Option TaxGroup) (acc : Classification)
    (i : NodeDescriptor) : Classification :=
  match f i with
  | some TaxGroup.measures => { acc with measures := acc.measures ++ [i] }
  | some TaxGroup.dimensions => { acc with dimensions := acc.dimensions ++ [i] }
  | some TaxGroup.attributes => { acc with attributes := acc.attributes ++ [i] }
  | none => acc

/-- The classification loop of `classify_datasets`, parameterised by the
enumeration `cands` of the candidate set. -/
def classifyWith (nc : String → Option Bool) (ds : List NodeDescriptor)
    (cands : List String) : Classification :=
  ds.foldl (classifyStep (classifyNode nc ds cands)) ⟨[], [], []⟩

/-- `classify_datasets`, from the `datasets_info` mapping on: compute the
candidate set, then run the classification loop. -/
def classify_datasets (nc : String → Option Bool) (ds : List NodeDescriptor) :
    Classification :=
  classifyWith nc ds (dimCandidates ds)

/-- Concrete oracle modelling `np.issubdtype(np.dtype(t), np.number)` on a
few dtype strings: `some true` for numeric dtypes, `some false` for
non-numeric ones, `none` (a raised exception) for strings `np.dtype` cannot
parse — e.g. the printed form of a compound dtype, which `str(obj.dtype)`
produces for structured datasets and `np.dtype` then refuses. -/
def npNumericModel (t : String) : Option Bool :=
  if t = "float64" ∨ t = "float32" ∨ t = "int64" ∨ t = "int32" ∨ t = "uint8" then
    some true
  else if t = "object" ∨ t = "S8" ∨ t = "bool" then some false
  else none

/-- One name/value pair of `additionalProperty`. -/
structure PropEntry where
  ptype : String
  name : Option String
  value : Option String
deriving DecidableEq, Repr

/-- One element of `variableMeasured`. -/
structure VariableEntry where
  vtype : String
  name : String
  dataset : String
  encodingFormat : String
  role : String
  additionalProperty : List PropEntry
deriving DecidableEq, Repr

/-- The JSON-LD document built by `build_jsonld`: the fixed `@context`
(vocab and ddi namespace), the fixed `@type`, the caller-supplied name, and
the ordered entry list. -/
structure JsonLD where
  vocab : String
  ddi : String
  jtype : String
  name : String
  variableMeasured : List VariableEntry
deriving DecidableEq, Repr

/-- `checkForBytes`: decode a `numpy.bytes_` value to text; every other input
falls off the end of the Python function and yields `None`. -/
def checkForBytes : PyVal → Option String
  | PyVal.npBytes b => some (utf8DecodeReplace b)
  | _ => none

/-- One `additionalProperty` item built from an attribute key/value pair. -/
def mkProp (kv : PyVal × PyVal) : PropEntry :=
  { ptype := "PropertyValue", name := checkForBytes kv.1, value := checkForBytes kv.2 }

/-- The entry `add_var` appends for one descriptor and role. -/
def mkVarEntry (info : NodeDescriptor) (role : String) : VariableEntry :=
  { vtype := "PropertyValue"
    name := lastSeg info.path
    dataset := "/" ++ info.path
    encodingFormat := "application/x-hdf5"
    role := role
    additionalProperty := info.attrs.map mkProp }

/-- `add_var`: append one entry to `jsonld["variableMeasured"]`. -/
def add_var (doc : JsonLD) (info : NodeDescriptor) (role : String) : JsonLD :=
  { doc with variableMeasured := doc.variableMeasured ++ [mkVarEntry info role] }

/-- `build_jsonld`: the fixed preamble, then one entry per descriptor in the
order measures, dimensions, attributes, each group in its own order. -/
def build_jsonld (c : Classification) (dataset_name : String) : JsonLD :=
  let doc0 : JsonLD :=
    { vocab := "https://schema.org/"
      ddi := "https://ddi-alliance.org/ns/cdi#"
      jtype := "Dataset"
      name := dataset_name
      variableMeasured := [] }
  let doc1 := c.measures.foldl (fun d i => add_var d i "Measure") doc0
  let doc2 := c.dimensions.foldl (fun d i => add_var d i "Dimension") doc1
  c.attributes.foldl (fun d i => add_var d i "Attribute") doc2

/-- The whole pipeline as composed in the script: classify, then assemble. -/
def hdf5ToJsonld (nc : String → Option Bool) (ds : List NodeDescriptor)
    (dataset_name : String) : JsonLD :=
  build_jsonld (classify_datasets nc ds) dataset_name

/-! ### Concrete descriptor collections used by witnesses and counterexamples -/

/-- Rank-1 numeric node (scenario A coordinate axis). -/
def nX : NodeDescriptor :=
  { path := "x", shape := [10], dtype := "float64", attrs := [], dims := [""] }

/-- Rank-2 numeric node sharing axis length 10 with `nX`. -/
def nY : NodeDescriptor :=
  { path := "y", shape := [10, 5], dtype := "float64", attrs := [], dims := ["", ""] }

/-- Scalar string node. -/
def nUnits : NodeDescriptor :=
  { path := "units", shape := [], dtype := "object", attrs := [], dims := [] }

/-- Scenario A collection: one axis, one aligned measure, one scalar. -/
def dsA : List NodeDescriptor := [nX, nY, nUnits]

/-- Rank-1 candidate whose dtype string `np.dtype` cannot parse (the printed
form of a structured dtype behaves this way), so the numeric test raises. -/
def nC1bad : NodeDescriptor :=
  { path := "detector/counts", shape := [2], dtype := "compound64", attrs := [], dims := [] }

/-- Collection whose single node is dropped by the exception handler. -/
def dsC1 : List NodeDescriptor := [nC1bad]

/-- Rank-1 candidate with an unparseable dtype string. -/
def nBad : NodeDescriptor :=
  { path := "entry/table", shape := [4], dtype := "compound64", attrs := [], dims := [] }

/-- Rank-1 numeric candidate. -/
def nGood : NodeDescriptor :=
  { path := "entry/x", shape := [4], dtype := "float64", attrs := [], dims := [] }

/-- Collection mixing a node whose evaluation raises with a healthy one. -/
def dsC2 : List NodeDescriptor := [nBad, nGood]

/-- Candidate with non-numeric dtype whose display name has no "time" but
whose full path starts with a "time" segment. -/
def nTimeSeg : NodeDescriptor :=
  { path := "time/x", shape := [3], dtype := "S8", attrs := [], dims := [] }

/-- Collection exercising the full-path "time" test. -/
def dsC4 : List NodeDescriptor := [nTimeSeg]

/-- Node carrying a byte-string attribute pair (the key decodes cleanly, the
value has an undecodable `0xFF` byte) and a plain string/int attribute pair. -/
def nAttr : NodeDescriptor :=
  { path := "entry/data", shape := [5], dtype := "float64",
    attrs := [(PyVal.npBytes [0x6D], PyVal.npBytes [0x75, 0xFF]),
              (PyVal.pystr "units", PyVal.pyint 3)],
    dims := [] }

/-- A ready-made classification used to exercise the assembler alone. -/
def cW : Classification :=
  { measures := [nAttr], dimensions := [nX], attributes := [nUnits] }

/-! ### Helper lemmas about the classification loop -/

theorem classifyStep_foldl (f : NodeDescriptor → Option TaxGroup)
    (l : List NodeDescriptor) (acc : Classification) :
    l.foldl (classifyStep f) acc =
      { measures := acc.measures ++
          l.filter (fun i => decide (f i = some TaxGroup.measures)),
        dimensions := acc.dimensions ++
          l.filter (fun i => decide (f i = some TaxGroup.dimensions)),
        attributes := acc.attributes ++
          l.filter (fun i => decide (f i = some TaxGroup.attributes)) } := by
  induction l generalizing acc with
  | nil => cases acc; simp
  | cons i t ih =>
    rw [List.foldl_cons, ih]
    rcases h : f i with _ | g
    · cases acc; simp [classifyStep, h, List.filter_cons]
    · cases g <;> cases acc <;>
        simp [classifyStep, h, List.filter_cons, List.append_assoc]

theorem classifyWith_measures (nc : String → Option Bool) (ds : List NodeDescriptor)
    (cands : List String) :
    (classifyWith nc ds cands).measures =
      ds.filter (fun i => decide (classifyNode nc ds cands i = some TaxGroup.measures)) := by
  rw [classifyWith, classifyStep_foldl]; simp

theorem classifyWith_dimensions (nc : String → Option Bool) (ds : List NodeDescriptor)
    (cands : List String) :
    (classifyWith nc ds cands).dimensions =
      ds.filter (fun i => decide (classifyNode nc ds cands i = some TaxGroup.dimensions)) := by
  rw [classifyWith, classifyStep_foldl]; simp

theorem classifyWith_attributes (nc : String → Option Bool) (ds : List NodeDescriptor)
    (cands : List String) :
    (classifyWith nc ds cands).attributes =
      ds.filter (fun i => decide (classifyNode nc ds cands i = some TaxGroup.attributes)) := by
  rw [classifyWith, classifyStep_foldl]; simp

theorem mem_classifyWith_measures {nc : String → Option Bool} {ds : List NodeDescriptor}
    {cands : List String} {i : NodeDescriptor} :
    i ∈ (classifyWith nc ds cands).measures ↔
      i ∈ ds ∧ classifyNode nc ds cands i = some TaxGroup.measures := by
  rw [classifyWith_measures]; simp [List.mem_filter]

theorem mem_classifyWith_dimensions {nc : String → Option Bool} {ds : List NodeDescriptor}
    {cands : List String} {i : NodeDescriptor} :
    i ∈ (classifyWith nc ds cands).dimensions ↔
      i ∈ ds ∧ classifyNode nc ds cands i = some TaxGroup.dimensions := by
  rw [classifyWith_dimensions]; simp [List.mem_filter]

theorem mem_classifyWith_attributes {nc : String → Option Bool} {ds : List NodeDescriptor}
    {cands : List String} {i : NodeDescriptor} :
    i ∈ (classifyWith nc ds cands).attributes ↔
      i ∈ ds ∧ classifyNode nc ds cands i = some TaxGroup.attributes := by
  rw [classifyWith_attributes]; simp [List.mem_filter]

/-! ### Helper lemmas about the candidate set and dict lookups -/

theorem mem_dimCandidates {ds : List NodeDescriptor} {p : String} :
    p ∈ dimCandidates ds ↔ ∃ j ∈ ds, isDimCandidate j = true ∧ j.path = p := by
  simp [dimCandidates, List.mem_map, List.mem_filter]
  constructor
  · rintro ⟨j, ⟨hj, hc⟩, hp⟩; exact ⟨j, hj, hc, hp⟩
  · rintro ⟨j, hj, hc, hp⟩; exact ⟨j, ⟨hj, hc⟩, hp⟩

theorem lookupPath_eq_some {ds : List NodeDescriptor} {p : String} {j : NodeDescriptor}
    (h : lookupPath ds p = some j) : j ∈ ds ∧ j.path = p := by
  refine ⟨List.mem_of_find?_eq_some h, ?_⟩
  have := List.find?_some h
  simpa using this

theorem lookupPath_self {ds : List NodeDescriptor}
    (hnd : (ds.map (fun i => i.path)).Nodup) {j : NodeDescriptor} (hj : j ∈ ds) :
    lookupPath ds j.path = some j := by
  induction ds with
  | nil => cases hj
  | cons a t ih =>
    rw [List.map_cons, List.nodup_cons] at hnd
    rcases List.mem_cons.mp hj with h | h
    · subst h; simp [lookupPath, List.find?]
    · have hne : (a.path == j.path) = false := by
        apply beq_false_of_ne
        intro hpa
        exact hnd.1 (hpa ▸ List.mem_map_of_mem (fun i => i.path) h)
      simp only [lookupPath, List.find?, hne]
      exact ih hnd.2 h

theorem path_injective {ds : List NodeDescriptor}
    (hnd : (ds.map (fun i => i.path)).Nodup) {x y : NodeDescriptor}
    (hx : x ∈ ds) (hy : y ∈ ds) (hp : x.path = y.path) : x = y := by
  have h1 := lookupPath_self hnd hx
  have h2 := lookupPath_self hnd hy
  rw [hp] at h1
  rw [h1] at h2
  exact Option.some.inj h2

theorem mem_axisLens {ds : List NodeDescriptor} {cands : List String} {L : Nat} :
    L ∈ axisLens ds cands ↔
      ∃ d ∈ cands, ∃ j, lookupPath ds d = some j ∧
        j.shape.isEmpty = false ∧ j.shape.head? = some L := by
  simp only [axisLens, List.mem_filterMap]
  constructor
  · rintro ⟨d, hd, h⟩
    generalize hl : lookupPath ds d = r at h
    rcases r with _ | j
    · simp at h
    · dsimp only at h
      rcases he : j.shape.isEmpty with _ | _
      · rw [he] at h; simp at h
        exact ⟨d, hd, j, hl, he, h⟩
      · rw [he] at h; simp at h
  · rintro ⟨d, hd, j, hl, he, hh⟩
    refine ⟨d, hd, ?_⟩
    rw [hl]
    dsimp only
    rw [he]
    simpa using hh

theorem mem_axisLens_dimCandidates {ds : List NodeDescriptor}
    (hnd : (ds.map (fun i => i.path)).Nodup) {L : Nat} :
    L ∈ axisLens ds (dimCandidates ds) ↔
      ∃ j ∈ ds, isDimCandidate j = true ∧ j.shape ≠ [] ∧ j.shape.head? = some L := by
  rw [mem_axisLens]
  constructor
  · rintro ⟨d, hd, j, hl, he, hh⟩
    rcases lookupPath_eq_some hl with ⟨hjds, _⟩
    refine ⟨j, hjds, ?_, by simpa [List.isEmpty_iff] using he, hh⟩
    rcases mem_dimCandidates.mp hd with ⟨k, hk, hkc, hkp⟩
    have : k = j := by
      apply path_injective hnd hk hjds
      rw [hkp, (lookupPath_eq_some hl).2]
    rwa [this] at hkc
  · rintro ⟨j, hjds, hc, he, hh⟩
    refine ⟨j.path, mem_dimCandidates.mpr ⟨j, hjds, hc, rfl⟩, j,
      lookupPath_self hnd hjds, by simpa [List.isEmpty_iff] using he, hh⟩

/-! ### Helper lemmas for set-order independence -/

theorem contains_eq_of_mem_iff {l1 l2 : List String}
    (h : ∀ x, x ∈ l1 ↔ x ∈ l2) (x : String) : l1.contains x = l2.contains x := by
  rw [Bool.eq_iff_iff]
  constructor
  · intro hc
    have : x ∈ l1 := by simpa using hc
    simpa using (h x).mp this
  · intro hc
    have : x ∈ l2 := by simpa using hc
    simpa using (h x).mpr this

theorem any_eq_of_mem_iff {l1 l2 : List Nat}
    (h : ∀ x, x ∈ l1 ↔ x ∈ l2) (f : Nat → Bool) : l1.any f = l2.any f := by
  rw [Bool.eq_iff_iff, List.any_eq_true, List.any_eq_true]
  constructor
  · rintro ⟨x, hx, hf⟩; exact ⟨x, (h x).mp hx, hf⟩
  · rintro ⟨x, hx, hf⟩; exact ⟨x, (h x).mpr hx, hf⟩

theorem mem_axisLens_congr {ds : List NodeDescriptor} {o1 o2 : List String}
    (h : ∀ x, x ∈ o1 ↔ x ∈ o2) (L : Nat) :
    L ∈ axisLens ds o1 ↔ L ∈ axisLens ds o2 := by
  rw [mem_axisLens, mem_axisLens]
  constructor
  · rintro ⟨d, hd, rest⟩; exact ⟨d, (h d).mp hd, rest⟩
  · rintro ⟨d, hd, rest⟩; exact ⟨d, (h d).mpr hd, rest⟩

theorem classifyNode_congr (nc : String → Option Bool) (ds : List NodeDescriptor)
    {o1 o2 : List String} (h : ∀ x, x ∈ o1 ↔ x ∈ o2) (i : NodeDescriptor) :
    classifyNode nc ds o1 i = classifyNode nc ds o2 i := by
  rw [classifyNode, classifyNode,
    contains_eq_of_mem_iff h i.path,
    any_eq_of_mem_iff (mem_axisLens_congr h) (fun dimLen =>
      decide (0 < i.shape.length) && i.shape.contains dimLen)]

theorem classifyWith_congr (nc : String → Option Bool) (ds : List NodeDescriptor)
    {o1 o2 : List String} (h : ∀ x, x ∈ o1 ↔ x ∈ o2) :
    classifyWith nc ds o1 = classifyWith nc ds o2 := by
  rw [classifyWith, classifyWith]
  have : classifyNode nc ds o1 = classifyNode nc ds o2 :=
    funext (classifyNode_congr nc ds h)
  rw [this]

/-! ### Helper lemmas about the assembler -/

theorem add_var_foldl (l : List NodeDescriptor) (r : String) (doc : JsonLD) :
    l.foldl (fun d i => add_var d i r) doc =
      { doc with variableMeasured :=
          doc.variableMeasured ++ l.map (fun i => mkVarEntry i r) } := by
  induction l generalizing doc with
  | nil => cases doc; simp
  | cons i t ih =>
    rw [List.foldl_cons, ih]
    cases doc
    simp [add_var]

theorem build_jsonld_eq (c : Classification) (n : String) :
    build_jsonld c n =
      { vocab := "https://schema.org/"
        ddi := "https://ddi-alliance.org/ns/cdi#"
        jtype := "Dataset"
        name := n
        variableMeasured :=
          c.measures.map (fun i => mkVarEntry i "Measure") ++
          c.dimensions.map (fun i => mkVarEntry i "Dimension") ++
          c.attributes.map (fun i => mkVarEntry i "Attribute") } := by
  rw [build_jsonld]
  simp [add_var_foldl, List.append_assoc]

/-! ### Claims -/

/-- C3: a path of the collection is in the dimension-candidate set if and
only if its shape has exactly one axis or at least one of its axis labels is
non-empty; in particular a labelled node is a candidate regardless of rank
and an unlabelled scalar never is. -/
theorem c3_candidate_iff (ds : List NodeDescriptor)
    (hnd : (ds.map (fun i => i.path)).Nodup) (i : NodeDescriptor) (hi : i ∈ ds) :
    i.path ∈ dimCandidates ds ↔
      (i.shape.length = 1 ∨ ∃ d ∈ i.dims, d ≠ "") := by
  rw [mem_dimCandidates]
  constructor
  · rintro ⟨j, hj, hc, hp⟩
    have hji : j = i := path_injective hnd hj hi hp
    subst hji
    simpa [isDimCandidate, List.any_eq_true] using hc
  · intro h
    refine ⟨i, hi, ?_, rfl⟩
    simpa [isDimCandidate, List.any_eq_true] using h

/-- Witness for C3 at scenario A: the rank-1 node is a candidate. -/
theorem c3_candidate_iff_witness :
    nX.path ∈ dimCandidates dsA ↔
      (nX.shape.length = 1 ∨ ∃ d ∈ nX.dims, d ≠ "") :=
  c3_candidate_iff dsA (by decide) nX (by decide)

/-- C4 counterexample: `time/x` is a candidate with non-numeric dtype and a
display name `x` that does not contain "time", yet the code classifies it as
a dimension, because the test `"time" in name.lower()` runs on the full path,
not on the display name. -/
theorem c4_counterexample :
    (dimCandidates dsC4).contains nTimeSeg.path = true ∧
    npNumericModel nTimeSeg.dtype = some false ∧
    strContains (strLower (lastSeg nTimeSeg.path)) "time" = false ∧
    classify_datasets npNumericModel dsC4 =
      { measures := [], dimensions := [nTimeSeg], attributes := [] } := by
  refine ⟨by decide, by decide, by decide, by decide⟩

/-- C4 amended: a candidate whose element-type evaluation succeeds is
assigned to dimensions exactly when the type is numeric or the full path
(not merely the display name) contains the case-insensitive substring
"time"; every other such candidate goes to attributes and never to
measures.  (A candidate whose element-type evaluation raises is dropped,
see the C2 theorems.) -/
theorem c4_candidate_rule (nc : String → Option Bool) (ds : List NodeDescriptor)
    (i : NodeDescriptor) (b : Bool) (hi : i ∈ ds)
    (hc : (dimCandidates ds).contains i.path = true)
    (hb : nc i.dtype = some b) :
    (i ∈ (classify_datasets nc ds).dimensions ↔
      (b = true ∨ strContains (strLower i.path) "time" = true)) ∧
    (i ∈ (classify_datasets nc ds).attributes ↔
      ¬(b = true ∨ strContains (strLower i.path) "time" = true)) ∧
    i ∉ (classify_datasets nc ds).measures := by
  have hmem : i.path ∈ dimCandidates ds := by simpa using hc
  have hnode : classifyNode nc ds (dimCandidates ds) i =
      if b || strContains (strLower i.path) "time" then some TaxGroup.dimensions
      else some TaxGroup.attributes := by
    simp [classifyNode, hmem, hb]
  rcases hor : (b || strContains (strLower i.path) "time") with _ | _
  · rw [hor, if_neg (by simp)] at hnode
    have hbf : b = false ∧ strContains (strLower i.path) "time" = false := by
      simpa using hor
    refine ⟨?_, ?_, ?_⟩
    · rw [classify_datasets, mem_classifyWith_dimensions]
      simp [hnode, hbf.1, hbf.2]
    · rw [classify_datasets, mem_classifyWith_attributes]
      simp [hnode, hi, hbf.1, hbf.2]
    · rw [classify_datasets, mem_classifyWith_measures]
      simp [hnode]
  · rw [hor, if_pos rfl] at hnode
    have hbt : b = true ∨ strContains (strLower i.path) "time" = true := by
      simpa using hor
    refine ⟨?_, ?_, ?_⟩
    · rw [classify_datasets, mem_classifyWith_dimensions]
      simp [hnode, hi, hbt]
    · rw [classify_datasets, mem_classifyWith_attributes]
      simp [hnode, hbt]
    · rw [classify_datasets, mem_classifyWith_measures]
      simp [hnode]

/-- Witness for C4 at scenario A: the numeric rank-1 node `x` lands in
dimensions. -/
theorem c4_candidate_rule_witness :
    (nX ∈ (classify_datasets npNumericModel dsA).dimensions ↔
      (true = true ∨ strContains (strLower nX.path) "time" = true)) ∧
    (nX ∈ (classify_datasets npNumericModel dsA).attributes ↔
      ¬(true = true ∨ strContains (strLower nX.path) "time" = true)) ∧
    nX ∉ (classify_datasets npNumericModel dsA).measures :=
  c4_candidate_rule npNumericModel dsA nX true (by decide) (by decide) (by decide)

/-- C5: a descriptor outside the candidate set is assigned to measures
exactly when its shape is non-empty and some axis position holds the first
axis length of some candidate descriptor with non-empty shape; otherwise it
goes to attributes, and never to dimensions. -/
theorem c5_noncandidate_rule (nc : String → Option Bool) (ds : List NodeDescriptor)
    (i : NodeDescriptor) (hnd : (ds.map (fun j => j.path)).Nodup) (hi : i ∈ ds)
    (hc : (dimCandidates ds).contains i.path = false) :
    (i ∈ (classify_datasets nc ds).measures ↔
      (i.shape ≠ [] ∧ ∃ j ∈ ds, isDimCandidate j = true ∧ j.shape ≠ [] ∧
        ∃ L, j.shape.head? = some L ∧ L ∈ i.shape)) ∧
    (i ∈ (classify_datasets nc ds).attributes ↔
      ¬(i.shape ≠ [] ∧ ∃ j ∈ ds, isDimCandidate j = true ∧ j.shape ≠ [] ∧
        ∃ L, j.shape.head? = some L ∧ L ∈ i.shape)) ∧
    i ∉ (classify_datasets nc ds).dimensions := by
  have hmem : i.path ∉ dimCandidates ds := by simpa using hc
  have hany : ((axisLens ds (dimCandidates ds)).any (fun dimLen =>
      decide (0 < i.shape.length) && i.shape.contains dimLen)) = true ↔
      (i.shape ≠ [] ∧ ∃ j ∈ ds, isDimCandidate j = true ∧ j.shape ≠ [] ∧
        ∃ L, j.shape.head? = some L ∧ L ∈ i.shape) := by
    rw [List.any_eq_true]
    constructor
    · rintro ⟨L, hL, hf⟩
      simp at hf
      rcases (mem_axisLens_dimCandidates hnd).mp hL with ⟨j, hj, hjc, hjs, hjh⟩
      exact ⟨List.length_pos.mp hf.1, j, hj, hjc, hjs, L, hjh, hf.2⟩
    · rintro ⟨hne, j, hj, hjc, hjs, L, hjh, hLs⟩
      refine ⟨L, (mem_axisLens_dimCandidates hnd).mpr ⟨j, hj, hjc, hjs, hjh⟩, ?_⟩
      simp [hLs, List.length_pos.mpr hne]
  have hnode : classifyNode nc ds (dimCandidates ds) i =
      if (axisLens ds (dimCandidates ds)).any (fun dimLen =>
        decide (0 < i.shape.length) && i.shape.contains dimLen)
      then some TaxGroup.measures else some TaxGroup.attributes := by
    simp [classifyNode, hmem]
  rcases hcase : ((axisLens ds (dimCandidates ds)).any (fun dimLen =>
      decide (0 < i.shape.length) && i.shape.contains dimLen)) with _ | _
  · rw [hcase, if_neg (by simp)] at hnode
    have hrhs : ¬(i.shape ≠ [] ∧ ∃ j ∈ ds, isDimCandidate j = true ∧ j.shape ≠ [] ∧
        ∃ L, j.shape.head? = some L ∧ L ∈ i.shape) := by
      rw [← hany, hcase]; simp
    refine ⟨?_, ?_, ?_⟩
    · rw [classify_datasets, mem_classifyWith_measures]
      simp [hnode, hrhs]
    · rw [classify_datasets, mem_classifyWith_attributes]
      simp [hnode, hi, hrhs]
    · rw [classify_datasets, mem_classifyWith_dimensions]
      simp [hnode]
  · rw [hcase, if_pos rfl] at hnode
    have hrhs := hany.mp hcase
    refine ⟨?_, ?_, ?_⟩
    · rw [classify_datasets, mem_classifyWith_measures]
      simp [hnode, hi, hrhs]
    · rw [classify_datasets, mem_classifyWith_attributes]
      simp [hnode, hrhs]
    · rw [classify_datasets, mem_classifyWith_dimensions]
      simp [hnode]

/-- Witness for C5 at scenario A: the rank-2 node `y` shares axis length 10
with the candidate `x` and is classified a measure. -/
theorem c5_noncandidate_rule_witness :
    (nY ∈ (classify_datasets npNumericModel dsA).measures ↔
      (nY.shape ≠ [] ∧ ∃ j ∈ dsA, isDimCandidate j = true ∧ j.shape ≠ [] ∧
        ∃ L, j.shape.head? = some L ∧ L ∈ nY.shape)) ∧
    (nY ∈ (classify_datasets npNumericModel dsA).attributes ↔
      ¬(nY.shape ≠ [] ∧ ∃ j ∈ dsA, isDimCandidate j = true ∧ j.shape ≠ [] ∧
        ∃ L, j.shape.head? = some L ∧ L ∈ nY.shape)) ∧
    nY ∉ (classify_datasets npNumericModel dsA).dimensions :=
  c5_noncandidate_rule npNumericModel dsA nY (by decide) (by decide) (by decide)

/-- C1 counterexample: a collection containing one rank-1 candidate whose
dtype string the numeric test cannot evaluate; the exception handler drops
it, so its path appears in none of the three groups and the groups do not
partition the input paths. -/
theorem c1_counterexample :
    nC1bad ∈ dsC1 ∧
    classify_datasets npNumericModel dsC1 =
      { measures := [], dimensions := [], attributes := [] } := by
  refine ⟨by decide, by decide⟩

/-- C1 amended: when the per-node element-type evaluation succeeds on every
candidate (no exception fires), every input descriptor appears in exactly
one of the three output groups and every group member comes from the input;
a descriptor whose evaluation raises appears in no group. -/
theorem c1_partition (nc : String → Option Bool) (ds : List NodeDescriptor)
    (hok : ∀ i ∈ ds, (dimCandidates ds).contains i.path = true →
      (nc i.dtype).isSome = true) :
    (∀ i ∈ ds,
      (i ∈ (classify_datasets nc ds).measures ∧
        i ∉ (classify_datasets nc ds).dimensions ∧
        i ∉ (classify_datasets nc ds).attributes) ∨
      (i ∉ (classify_datasets nc ds).measures ∧
        i ∈ (classify_datasets nc ds).dimensions ∧
        i ∉ (classify_datasets nc ds).attributes) ∨
      (i ∉ (classify_datasets nc ds).measures ∧
        i ∉ (classify_datasets nc ds).dimensions ∧
        i ∈ (classify_datasets nc ds).attributes)) ∧
    (∀ i, (i ∈ (classify_datasets nc ds).measures ∨
      i ∈ (classify_datasets nc ds).dimensions ∨
      i ∈ (classify_datasets nc ds).attributes) → i ∈ ds) := by
  constructor
  · intro i hi
    have hsome : (classifyNode nc ds (dimCandidates ds) i).isSome = true := by
      rw [classifyNode]
      rcases hc : (dimCandidates ds).contains i.path with _ | _
      · simp [hc]
        split <;> rfl
      · have hs := hok i hi hc
        rcases hb : nc i.dtype with _ | b
        · rw [hb] at hs; simp at hs
        · simp [hc, hb]
          split <;> rfl
    rcases hv : classifyNode nc ds (dimCandidates ds) i with _ | g
    · rw [hv] at hsome; simp at hsome
    · cases g
      · refine Or.inl ⟨?_, ?_, ?_⟩
        · rw [classify_datasets]
          exact mem_classifyWith_measures.mpr ⟨hi, hv⟩
        · rw [classify_datasets, mem_classifyWith_dimensions]; simp [hv]
        · rw [classify_datasets, mem_classifyWith_attributes]; simp [hv]
      · refine Or.inr (Or.inl ⟨?_, ?_, ?_⟩)
        · rw [classify_datasets, mem_classifyWith_measures]; simp [hv]
        · rw [classify_datasets]
          exact mem_classifyWith_dimensions.mpr ⟨hi, hv⟩
        · rw [classify_datasets, mem_classifyWith_attributes]; simp [hv]
      · refine Or.inr (Or.inr ⟨?_, ?_, ?_⟩)
        · rw [classify_datasets, mem_classifyWith_measures]; simp [hv]
        · rw [classify_datasets, mem_classifyWith_dimensions]; simp [hv]
        · rw [classify_datasets]
          exact mem_classifyWith_attributes.mpr ⟨hi, hv⟩
  · intro i hm
    rcases hm with h | h | h
    · rw [classify_datasets] at h
      exact (mem_classifyWith_measures.mp h).1
    · rw [classify_datasets] at h
      exact (mem_classifyWith_dimensions.mp h).1
    · rw [classify_datasets] at h
      exact (mem_classifyWith_attributes.mp h).1

/-- Witness for C1 at scenario A, where no evaluation raises. -/
theorem c1_partition_witness :
    (∀ i ∈ dsA,
      (i ∈ (classify_datasets npNumericModel dsA).measures ∧
        i ∉ (classify_datasets npNumericModel dsA).dimensions ∧
        i ∉ (classify_datasets npNumericModel dsA).attributes) ∨
      (i ∉ (classify_datasets npNumericModel dsA).measures ∧
        i ∈ (classify_datasets npNumericModel dsA).dimensions ∧
        i ∉ (classify_datasets npNumericModel dsA).attributes) ∨
      (i ∉ (classify_datasets npNumericModel dsA).measures ∧
        i ∉ (classify_datasets npNumericModel dsA).dimensions ∧
        i ∈ (classify_datasets npNumericModel dsA).attributes)) ∧
    (∀ i, (i ∈ (classify_datasets npNumericModel dsA).measures ∨
      i ∈ (classify_datasets npNumericModel dsA).dimensions ∨
      i ∈ (classify_datasets npNumericModel dsA).attributes) → i ∈ dsA) :=
  c1_partition npNumericModel dsA (by decide)

/-- C2 counterexample: the evaluation error on `entry/table` is caught, but
the descriptor is dropped from all three groups instead of being defaulted
into attributes, while the rest of the collection is still classified. -/
theorem c2_counterexample :
    nBad ∈ dsC2 ∧
    (dimCandidates dsC2).contains nBad.path = true ∧
    npNumericModel nBad.dtype = none ∧
    classify_datasets npNumericModel dsC2 =
      { measures := [], dimensions := [nGood], attributes := [] } ∧
    nBad ∉ (classify_datasets npNumericModel dsC2).attributes := by
  refine ⟨by decide, by decide, by decide, by decide, by decide⟩

/-- C2 amended: when the element-type evaluation of a candidate descriptor
raises, the handler catches the error (the code prints the offending path,
shape and axis labels) and the descriptor is dropped: it is placed in no
group, not in attributes; every other descriptor whose evaluation yields a
group is still classified into that group, so classification of the rest
completes. -/
theorem c2_dropped (nc : String → Option Bool) (ds : List NodeDescriptor)
    (i : NodeDescriptor) (hi : i ∈ ds)
    (hc : (dimCandidates ds).contains i.path = true)
    (hb : nc i.dtype = none) :
    i ∉ (classify_datasets nc ds).measures ∧
    i ∉ (classify_datasets nc ds).dimensions ∧
    i ∉ (classify_datasets nc ds).attributes ∧
    (∀ j ∈ ds, ∀ g, classifyNode nc ds (dimCandidates ds) j = some g →
      (j ∈ (classify_datasets nc ds).measures ∨
       j ∈ (classify_datasets nc ds).dimensions ∨
       j ∈ (classify_datasets nc ds).attributes)) := by
  have hmem : i.path ∈ dimCandidates ds := by simpa using hc
  have hnode : classifyNode nc ds (dimCandidates ds) i = none := by
    simp [classifyNode, hmem, hb]
  refine ⟨?_, ?_, ?_, ?_⟩
  · rw [classify_datasets, mem_classifyWith_measures]; simp [hnode]
  · rw [classify_datasets, mem_classifyWith_dimensions]; simp [hnode]
  · rw [classify_datasets, mem_classifyWith_attributes]; simp [hnode]
  · intro j hj g hg
    cases g
    · rw [classify_datasets]
      exact Or.inl (mem_classifyWith_measures.mpr ⟨hj, hg⟩)
    · rw [classify_datasets]
      exact Or.inr (Or.inl (mem_classifyWith_dimensions.mpr ⟨hj, hg⟩))
    · rw [classify_datasets]
      exact Or.inr (Or.inr (mem_classifyWith_attributes.mpr ⟨hj, hg⟩))

/-- Witness for C2 at the mixed collection: the bad node is dropped and the
healthy one still classified. -/
theorem c2_dropped_witness :
    nBad ∉ (classify_datasets npNumericModel dsC2).measures ∧
    nBad ∉ (classify_datasets npNumericModel dsC2).dimensions ∧
    nBad ∉ (classify_datasets npNumericModel dsC2).attributes ∧
    (∀ j ∈ dsC2, ∀ g, classifyNode npNumericModel dsC2 (dimCandidates dsC2) j = some g →
      (j ∈ (classify_datasets npNumericModel dsC2).measures ∨
       j ∈ (classify_datasets npNumericModel dsC2).dimensions ∨
       j ∈ (classify_datasets npNumericModel dsC2).attributes)) :=
  c2_dropped npNumericModel dsC2 nBad (by decide) (by decide) (by decide)

/-- C6: for every classified descriptor, a byte-string attribute value is
decoded by the total replacing UTF-8 decoder (undecodable byte sequences
become U+FFFD, nothing raises) and the assembled document contains the
decoded text in the entry of that descriptor. -/
theorem c6_bytes_decoded (c : Classification) (n : String) (i : NodeDescriptor)
    (kv : PyVal × PyVal) (bs : List Nat)
    (hi : i ∈ c.measures ++ c.dimensions ++ c.attributes)
    (hkv : kv ∈ i.attrs) (hb : kv.2 = PyVal.npBytes bs) :
    ∃ e ∈ (build_jsonld c n).variableMeasured,
      e.dataset = "/" ++ i.path ∧
      { ptype := "PropertyValue", name := checkForBytes kv.1,
        value := some (utf8DecodeReplace bs) } ∈ e.additionalProperty := by
  have hpe : mkProp kv =
      { ptype := "PropertyValue", name := checkForBytes kv.1,
        value := some (utf8DecodeReplace bs) } := by
    rw [mkProp, hb]; rfl
  have hprop := List.mem_map_of_mem mkProp hkv
  rw [hpe] at hprop
  rw [build_jsonld_eq]
  rcases List.mem_append.mp hi with h12 | h3
  · rcases List.mem_append.mp h12 with h1 | h2
    · exact ⟨mkVarEntry i "Measure",
        List.mem_append_left _ (List.mem_append_left _ (List.mem_map_of_mem _ h1)),
        rfl, hprop⟩
    · exact ⟨mkVarEntry i "Dimension",
        List.mem_append_left _ (List.mem_append_right _ (List.mem_map_of_mem _ h2)),
        rfl, hprop⟩
  · exact ⟨mkVarEntry i "Attribute",
      List.mem_append_right _ (List.mem_map_of_mem _ h3),
      rfl, hprop⟩

/-- Witness for C6: the byte value with an undecodable `0xFF` appears in the
document decoded, with the bad byte replaced by U+FFFD. -/
theorem c6_bytes_decoded_witness :
    (∃ e ∈ (build_jsonld cW "Example").variableMeasured,
      e.dataset = "/" ++ nAttr.path ∧
      { ptype := "PropertyValue",
        name := checkForBytes (PyVal.npBytes [0x6D]),
        value := some (utf8DecodeReplace [0x75, 0xFF]) } ∈ e.additionalProperty) ∧
    utf8DecodeReplace [0x75, 0xFF] = String.mk ['u', replChar] :=
  ⟨c6_bytes_decoded cW "Example" nAttr
      (PyVal.npBytes [0x6D], PyVal.npBytes [0x75, 0xFF]) [0x75, 0xFF]
      (by decide) (by decide) rfl,
    by decide⟩

/-- C7: the byte-decoding helper yields a value only for byte-string inputs
and `None` for every other input (plain strings, ints, floats, lists), so a
non-byte attribute key and value reach the assembled document as null name
and null value rather than as their original content. -/
theorem c7_nonbytes_none (c : Classification) (n : String) (i : NodeDescriptor)
    (kv : PyVal × PyVal)
    (hi : i ∈ c.measures ++ c.dimensions ++ c.attributes) (hkv : kv ∈ i.attrs)
    (hk : ∀ bs, kv.1 ≠ PyVal.npBytes bs) (hv : ∀ bs, kv.2 ≠ PyVal.npBytes bs) :
    (∀ v : PyVal, (∀ bs, v ≠ PyVal.npBytes bs) → checkForBytes v = none) ∧
    ∃ e ∈ (build_jsonld c n).variableMeasured,
      e.dataset = "/" ++ i.path ∧
      { ptype := "PropertyValue", name := none, value := none } ∈ e.additionalProperty := by
  have hnone : ∀ v : PyVal, (∀ bs, v ≠ PyVal.npBytes bs) → checkForBytes v = none := by
    intro v hvb
    cases v with
    | npBytes b => exact absurd rfl (hvb b)
    | pystr s => rfl
    | pyint m => rfl
    | pyfloat r => rfl
    | pyarr es => rfl
  refine ⟨hnone, ?_⟩
  have hpe : mkProp kv =
      { ptype := "PropertyValue", name := none, value := none } := by
    rw [mkProp, hnone kv.1 hk, hnone kv.2 hv]
  have hprop := List.mem_map_of_mem mkProp hkv
  rw [hpe] at hprop
  rw [build_jsonld_eq]
  rcases List.mem_append.mp hi with h12 | h3
  · rcases List.mem_append.mp h12 with h1 | h2
    · exact ⟨mkVarEntry i "Measure",
        List.mem_append_left _ (List.mem_append_left _ (List.mem_map_of_mem _ h1)),
        rfl, hprop⟩
    · exact ⟨mkVarEntry i "Dimension",
        List.mem_append_left _ (List.mem_append_right _ (List.mem_map_of_mem _ h2)),
        rfl, hprop⟩
  · exact ⟨mkVarEntry i "Attribute",
      List.mem_append_right _ (List.mem_map_of_mem _ h3),
      rfl, hprop⟩

/-- Witness for C7: the plain string key "units" and integer value 3 arrive
in the document as a null-name, null-value property. -/
theorem c7_nonbytes_none_witness :
    (∀ v : PyVal, (∀ bs, v ≠ PyVal.npBytes bs) → checkForBytes v = none) ∧
    ∃ e ∈ (build_jsonld cW "Example").variableMeasured,
      e.dataset = "/" ++ nAttr.path ∧
      { ptype := "PropertyValue", name := none, value := none } ∈ e.additionalProperty :=
  c7_nonbytes_none cW "Example" nAttr (PyVal.pystr "units", PyVal.pyint 3)
    (by decide) (by decide) (by intro bs h; cases h) (by intro bs h; cases h)

/-- C8: the assembler emits exactly one entry per classified descriptor, in
group order measures, dimensions, attributes, preserving the internal order
of each group; each entry carries the role tag of its group, the last path
segment as display name, the full path (prefixed with a slash), the fixed
encoding-format constant, and the property list mapped from the local
attributes — in particular an attribute-less descriptor still yields an
entry, with an empty property list. -/
theorem c8_assembly (c : Classification) (n : String) :
    (build_jsonld c n).variableMeasured.length =
      c.measures.length + c.dimensions.length + c.attributes.length ∧
    (∀ (k : Nat) (i : NodeDescriptor), c.measures[k]? = some i →
      (build_jsonld c n).variableMeasured[k]? = some
        { vtype := "PropertyValue", name := lastSeg i.path, dataset := "/" ++ i.path,
          encodingFormat := "application/x-hdf5", role := "Measure",
          additionalProperty := i.attrs.map mkProp }) ∧
    (∀ (k : Nat) (i : NodeDescriptor), c.dimensions[k]? = some i →
      (build_jsonld c n).variableMeasured[c.measures.length + k]? = some
        { vtype := "PropertyValue", name := lastSeg i.path, dataset := "/" ++ i.path,
          encodingFormat := "application/x-hdf5", role := "Dimension",
          additionalProperty := i.attrs.map mkProp }) ∧
    (∀ (k : Nat) (i : NodeDescriptor), c.attributes[k]? = some i →
      (build_jsonld c n).variableMeasured[c.measures.length + c.dimensions.length + k]? =
        some
        { vtype := "PropertyValue", name := lastSeg i.path, dataset := "/" ++ i.path,
          encodingFormat := "application/x-hdf5", role := "Attribute",
          additionalProperty := i.attrs.map mkProp }) ∧
    (∀ i, i ∈ c.measures ++ c.dimensions ++ c.attributes → i.attrs = [] →
      ∃ e ∈ (build_jsonld c n).variableMeasured,
        e.dataset = "/" ++ i.path ∧ e.additionalProperty = []) := by
  refine ⟨?_, ?_, ?_, ?_, ?_⟩
  · rw [build_jsonld_eq]
    simp [List.length_append, List.length_map]
    omega
  · intro k i hk
    rcases List.getElem?_eq_some.mp hk with ⟨hlt, _⟩
    rw [build_jsonld_eq]
    dsimp only
    rw [List.getElem?_append_left (by simp; omega),
      List.getElem?_append_left (by simpa using hlt),
      List.getElem?_map, hk]
    rfl
  · intro k i hk
    rcases List.getElem?_eq_some.mp hk with ⟨hlt, _⟩
    rw [build_jsonld_eq]
    dsimp only
    rw [List.getElem?_append_left (by simp; omega),
      List.getElem?_append_right (by simp)]
    have hidx : c.measures.length + k -
        (c.measures.map (fun j => mkVarEntry j "Measure")).length = k := by
      simp
    rw [hidx, List.getElem?_map, hk]
    rfl
  · intro k i hk
    rw [build_jsonld_eq]
    dsimp only
    rw [List.getElem?_append_right (by simp)]
    have hidx : c.measures.length + c.dimensions.length + k -
        (c.measures.map (fun j => mkVarEntry j "Measure") ++
          c.dimensions.map (fun j => mkVarEntry j "Dimension")).length = k := by
      simp
    rw [hidx, List.getElem?_map, hk]
    rfl
  · intro i hi hempty
    rw [build_jsonld_eq]
    have hprop : (mkVarEntry i "Measure").additionalProperty = [] ∧
        (mkVarEntry i "Dimension").additionalProperty = [] ∧
        (mkVarEntry i "Attribute").additionalProperty = [] := by
      simp [mkVarEntry, hempty]
    rcases List.mem_append.mp hi with h12 | h3
    · rcases List.mem_append.mp h12 with h1 | h2
      · exact ⟨mkVarEntry i "Measure",
          List.mem_append_left _ (List.mem_append_left _ (List.mem_map_of_mem _ h1)),
          rfl, hprop.1⟩
      · exact ⟨mkVarEntry i "Dimension",
          List.mem_append_left _ (List.mem_append_right _ (List.mem_map_of_mem _ h2)),
          rfl, hprop.2.1⟩
    · exact ⟨mkVarEntry i "Attribute",
        List.mem_append_right _ (List.mem_map_of_mem _ h3),
        rfl, hprop.2.2⟩

/-- Witness for C8: in the ready-made classification the dimension group
node `x` appears at offset `measures.length`, as a Dimension entry with its
display name and path. -/
theorem c8_assembly_witness :
    (build_jsonld cW "Example").variableMeasured[cW.measures.length + 0]? = some
      { vtype := "PropertyValue", name := lastSeg nX.path, dataset := "/" ++ nX.path,
        encodingFormat := "application/x-hdf5", role := "Dimension",
        additionalProperty := nX.attrs.map mkProp } :=
  (c8_assembly cW "Example").2.2.1 0 nX (by decide)

/-- C9 counterexample: on an empty descriptor collection the pipeline does
not fail; it returns a complete document whose variable list is empty.  (The
classifier and assembler have no failure channel at all: the only raises in
the source are swallowed per node.) -/
theorem c9_counterexample :
    hdf5ToJsonld npNumericModel [] "HDF5 Dataset" =
      { vocab := "https://schema.org/", ddi := "https://ddi-alliance.org/ns/cdi#",
        jtype := "Dataset", name := "HDF5 Dataset", variableMeasured := [] } := by
  decide

/-- C9 amended: per-node diagnostics never abort the run (the classifier is
total and every group member comes from the input), and a total absence of
input nodes is not a hard failure either: for every oracle and document name
the pipeline returns the fixed preamble with an empty variable list. -/
theorem c9_empty_input (nc : String → Option Bool) (n : String) :
    hdf5ToJsonld nc [] n =
      { vocab := "https://schema.org/", ddi := "https://ddi-alliance.org/ns/cdi#",
        jtype := "Dataset", name := n, variableMeasured := [] } := by
  rw [hdf5ToJsonld, build_jsonld_eq]
  rfl

/-- C10: the assembled document is a function of the descriptor collection
alone — in particular it does not depend on the enumeration order of the
`dim_candidates` set (the one internally nondeterministic ingredient, since
Python set iteration order varies across runs): any two enumerations with
the same membership as the candidate set give byte-identical documents. -/
theorem c10_deterministic (nc : String → Option Bool) (ds : List NodeDescriptor)
    (n : String) (o1 o2 : List String)
    (h1 : ∀ x, x ∈ o1 ↔ x ∈ dimCandidates ds)
    (h2 : ∀ x, x ∈ o2 ↔ x ∈ dimCandidates ds) :
    build_jsonld (classifyWith nc ds o1) n = build_jsonld (classifyWith nc ds o2) n := by
  have h : ∀ x, x ∈ o1 ↔ x ∈ o2 := fun x => (h1 x).trans (h2 x).symm
  rw [classifyWith_congr nc ds h]

/-- Witness for C10: the two candidates of the mixed collection enumerated
in both orders produce the same document. -/
theorem c10_deterministic_witness :
    build_jsonld (classifyWith npNumericModel dsC2 ["entry/table", "entry/x"]) "Example" =
      build_jsonld (classifyWith npNumericModel dsC2 ["entry/x", "entry/table"]) "Example" :=
  c10_deterministic npNumericModel dsC2 "Example"
    ["entry/table", "entry/x"] ["entry/x", "entry/table"]
    (by
      intro x
      have hc : dimCandidates dsC2 = ["entry/table", "entry/x"] := by decide
      rw [hc])
    (by
      intro x
      have hc : dimCandidates dsC2 = ["entry/table", "entry/x"] := by decide
      rw [hc]
      simp [List.mem_cons]
      tauto)
